import Mathlib

/-!
Verification of the Secret Santa generator and related persistent-state
operations of `src/app.py` (a Flask family wish-list application).

The relevant routes are shallowly embedded as pure Lean functions over an
explicit database state `DB`.  Randomness (`random.shuffle`) is modelled as
a stream `shuffles : Nat → List String` giving the list produced by the
shuffle on each attempt; theorems that need it assume each entry is a
permutation of the participant names, which is exactly what an in-place
shuffle of a copy of `names` guarantees.
-/

/-- Row of the `family_members` table: `id INTEGER PRIMARY KEY`,
`name TEXT NOT NULL UNIQUE`, `team_name TEXT` (nullable). -/
structure FamilyMember where
  id : Nat
  name : String
  team_name : Option String
deriving DecidableEq, Repr

/-- Row of the `wishes` table: `id`, `person_name`, `wish_text`,
`product_link` (nullable), `reserved INTEGER DEFAULT 0`. -/
structure Wish where
  id : Nat
  person_name : String
  wish_text : String
  product_link : Option String
  reserved : Nat
deriving DecidableEq, Repr

/-- The persistent store: the tables touched by the embedded routes.
`secret_santa` rows are `(giver_name, receiver_name)` pairs and
`settings` maps a key to its stored value (`none` = no row / NULL). -/
structure DB where
  family_members : List FamilyMember
  wishes : List Wish
  secret_santa : List (String × String)
  settings : String → Option String

/-- Outcome of the `run_secret_santa` route, as signalled by its flash
message: fewer than 2 members, attempts exhausted, or success. -/
inductive SantaOutcome where
  | insufficientParticipants
  | noFeasibleAssignment
  | success
deriving DecidableEq, Repr

/-- `MAX_ATTEMPTS = 200` in `run_secret_santa`. -/
def MAX_ATTEMPTS : Nat := 200

/-- Codepoint-lexicographic comparison of character lists, the order
SQLite's default BINARY collation gives `ORDER BY name ASC` (byte order,
which on these names is codepoint order). -/
def charListLe : List Char → List Char → Bool
  | [], _ => true
  | _ :: _, [] => false
  | a :: as, b :: bs =>
    if a.toNat < b.toNat then true
    else if b.toNat < a.toNat then false
    else charListLe as bs

/-- String comparison used for `ORDER BY name ASC`. -/
def nameLe (a b : String) : Bool := charListLe a.toList b.toList

/-- The members as read by
`SELECT name, team_name FROM family_members ORDER BY name ASC`. -/
def sortedMembers (db : DB) : List FamilyMember :=
  List.insertionSort (fun a b => nameLe a.name b.name = true) db.family_members

/-- `names = [m['name'] for m in members]`. -/
def memberNames (db : DB) : List String :=
  (sortedMembers db).map (fun m => m.name)

/-- The dict `teams = {m['name']: m['team_name'] for m in members}` with
`.get` semantics: `none` for absent keys.  A Python dict comprehension
keeps the last binding for a duplicated key, hence `find?` over the
reversed list (names are UNIQUE in the table, so this matters only for
faithfulness). -/
def teamsOf (db : DB) : String → Option String :=
  fun n => ((sortedMembers db).reverse.find? (fun m => m.name == n)).bind
    (fun m => m.team_name)

/-- The team-collision test of the inner loop:
`if giver_team and giver_team == receiver_team`.  Python truthiness makes
a `None` or empty-string giver team never collide. -/
def teamConflict (teams : String → Option String) (giver receiver : String) : Bool :=
  match teams giver with
  | none => false
  | some t => !(t == "") && (teams receiver == some t)

/-- The edges derived from one shuffled list treated as a single cycle:
`for i, giver in enumerate(shuffled): receiver = shuffled[(i + 1) % len(shuffled)]`. -/
def cycleEdges (l : List String) : List (String × String) :=
  (List.range l.length).map (fun i => (l.getD i "", l.getD ((i + 1) % l.length) ""))

/-- The validity check of one attempt: no adjacent pair of the cycle has a
team collision (the Python loop sets `valid = False` and breaks at the
first collision, which agrees with `List.all`). -/
def validAssignment (teams : String → Option String) (shuffled : List String) : Bool :=
  (cycleEdges shuffled).all (fun e => !(teamConflict teams e.1 e.2))

/-- The `run_secret_santa` route.  It reads the member pool, rejects fewer
than 2 members, tries up to `MAX_ATTEMPTS` shuffles for one passing the
validity check, and on success replaces the whole `secret_santa` table
(`DELETE FROM secret_santa` followed by one `INSERT` per cycle edge); on
failure the store is returned unchanged. -/
def run_secret_santa (shuffles : Nat → List String) (db : DB) : SantaOutcome × DB :=
  if (memberNames db).length < 2 then
    (SantaOutcome.insufficientParticipants, db)
  else
    match ((List.range MAX_ATTEMPTS).map shuffles).find?
        (validAssignment (teamsOf db)) with
    | none => (SantaOutcome.noFeasibleAssignment, db)
    | some assignment =>
      (SantaOutcome.success, { db with secret_santa := cycleEdges assignment })

/-- The `delete_family_member` route: look the member up by id; if found,
`DELETE FROM wishes WHERE person_name = ?` with the member's name and
`DELETE FROM family_members WHERE id = ?`; the `secret_santa` table is not
touched. -/
def delete_family_member (member_id : Nat) (db : DB) : DB :=
  match db.family_members.find? (fun m => m.id == member_id) with
  | none => db
  | some member =>
    { db with
      wishes := db.wishes.filter (fun w => !(w.person_name == member.name)),
      family_members := db.family_members.filter (fun m => !(m.id == member_id)) }

/-- `get_setting`: value of a settings row, `none` when absent. -/
def get_setting (db : DB) (key : String) : Option String :=
  db.settings key

/-- `set_setting`: `INSERT OR REPLACE INTO settings`. -/
def set_setting (db : DB) (key value : String) : DB :=
  { db with settings := fun k => if k = key then some value else db.settings k }

/-- A calendar date as in Python's `datetime.date`; comparison is
lexicographic on (year, month, day). -/
structure PyDate where
  year : Nat
  month : Nat
  day : Nat
deriving DecidableEq, Repr

/-- Strict `datetime.date` comparison `a < b`. -/
def dateLt (a b : PyDate) : Bool :=
  if a.year < b.year then true
  else if b.year < a.year then false
  else if a.month < b.month then true
  else if b.month < a.month then false
  else decide (a.day < b.day)

/-- Gregorian leap-year rule used by `datetime.date`. -/
def isLeapYear (y : Nat) : Bool :=
  y % 4 == 0 && (y % 100 != 0 || y % 400 == 0)

/-- Days in a month, as validated by the `datetime.date` constructor. -/
def daysInMonth (y m : Nat) : Nat :=
  if m == 2 then (if isLeapYear y then 29 else 28)
  else if m == 4 || m == 6 || m == 9 || m == 11 then 30
  else 31

/-- Numeric value of a decimal digit character. -/
def digitVal (c : Char) : Nat := c.toNat - 48

/-- Model of `datetime.date.fromisoformat` on the canonical `YYYY-MM-DD`
form: `none` stands for the `ValueError` raised on any malformed string
(wrong shape, non-digits, month/day out of range, year 0). -/
def parseIsoDate (s : String) : Option PyDate :=
  match s.toList with
  | [y1, y2, y3, y4, s1, m1, m2, s2, d1, d2] =>
    if y1.isDigit && y2.isDigit && y3.isDigit && y4.isDigit && s1 == '-' &&
        m1.isDigit && m2.isDigit && s2 == '-' && d1.isDigit && d2.isDigit then
      let y := 1000 * digitVal y1 + 100 * digitVal y2 + 10 * digitVal y3 + digitVal y4
      let m := 10 * digitVal m1 + digitVal m2
      let d := 10 * digitVal d1 + digitVal d2
      if 1 ≤ y ∧ 1 ≤ m ∧ m ≤ 12 ∧ 1 ≤ d ∧ d ≤ daysInMonth y m then
        some ⟨y, m, d⟩
      else none
    else none
  | _ => none

/-- `wishes_locked`: `False` when the `wish_deadline` setting is unset or
empty (Python truthiness) or fails to parse (`ValueError` caught), and
otherwise `date.today() > deadline`. -/
def wishes_locked (db : DB) (today : PyDate) : Bool :=
  match get_setting db "wish_deadline" with
  | none => false
  | some deadline_str =>
    if deadline_str = "" then false
    else
      match parseIsoDate deadline_str with
      | none => false
      | some deadline => dateLt deadline today

/-- The `set_deadline` route: it strips the submitted form value and
stores it verbatim (or stores the empty string to clear the deadline);
no date validation is performed. -/
def set_deadline (raw : String) (db : DB) : DB :=
  if raw.trim = "" then set_setting db "wish_deadline" ""
  else set_setting db "wish_deadline" raw.trim

/-- An empty settings table. -/
def noSettings : String → Option String := fun _ => none

/-- Sample state: two untagged members and a stale stored assignment. -/
def exPair : DB :=
  { family_members := [⟨1, "ann", none⟩, ⟨2, "bob", none⟩],
    wishes := [], secret_santa := [("old1", "old2")], settings := noSettings }

/-- `exPair` after a successful run that picked the shuffle `[ann, bob]`. -/
def exPairAfter : DB := { exPair with secret_santa := [("ann", "bob"), ("bob", "ann")] }

/-- Sample state: two members on different teams. -/
def exPairTeams : DB :=
  { family_members := [⟨1, "ann", some "x"⟩, ⟨2, "bob", some "y"⟩],
    wishes := [], secret_santa := [], settings := noSettings }

/-- `exPairTeams` after a successful run that picked the shuffle `[ann, bob]`. -/
def exPairTeamsAfter : DB :=
  { exPairTeams with secret_santa := [("ann", "bob"), ("bob", "ann")] }

/-- Sample state: a single member. -/
def exSolo : DB :=
  { family_members := [⟨1, "ann", none⟩],
    wishes := [], secret_santa := [("keep", "me")], settings := noSettings }

/-- Sample state: three members all on the same team `x`. -/
def exTrio : DB :=
  { family_members := [⟨1, "ada", some "x"⟩, ⟨2, "ben", some "x"⟩, ⟨3, "cid", some "x"⟩],
    wishes := [], secret_santa := [], settings := noSettings }

/-- Sample state: twenty members, none tagged with a team. -/
def exTwenty : DB :=
  { family_members :=
      [⟨1, "a", none⟩, ⟨2, "b", none⟩, ⟨3, "c", none⟩, ⟨4, "d", none⟩,
       ⟨5, "e", none⟩, ⟨6, "f", none⟩, ⟨7, "g", none⟩, ⟨8, "h", none⟩,
       ⟨9, "i", none⟩, ⟨10, "j", none⟩, ⟨11, "k", none⟩, ⟨12, "l", none⟩,
       ⟨13, "m", none⟩, ⟨14, "n", none⟩, ⟨15, "o", none⟩, ⟨16, "p", none⟩,
       ⟨17, "q", none⟩, ⟨18, "r", none⟩, ⟨19, "s", none⟩, ⟨20, "t", none⟩],
    wishes := [], secret_santa := [], settings := noSettings }

/-- The member names of `exTwenty` in pool order. -/
def exTwentyNames : List String :=
  ["a", "b", "c", "d", "e", "f", "g", "h", "i", "j",
   "k", "l", "m", "n", "o", "p", "q", "r", "s", "t"]

/-- Sample state for deletion: two members, wishes for both, and a stored
assignment covering both. -/
def exDel : DB :=
  { family_members := [⟨1, "ann", none⟩, ⟨2, "bob", none⟩],
    wishes := [⟨1, "ann", "socks", none, 0⟩, ⟨2, "bob", "book", none, 0⟩],
    secret_santa := [("ann", "bob"), ("bob", "ann")], settings := noSettings }

/-- Sample state with a malformed deadline string stored. -/
def exBadDeadline : DB :=
  { family_members := [], wishes := [], secret_santa := [],
    settings := fun k => if k = "wish_deadline" then some "2025-13-05" else none }

/-- The first component of the edge list derived from a shuffle is the
shuffle itself: edge `i` is `(shuffled[i], shuffled[(i+1) % n])`. -/
lemma cycleEdges_map_fst (l : List String) : (cycleEdges l).map Prod.fst = l := by
  apply List.ext_getElem
  · simp [cycleEdges]
  · intro i h1 h2
    simp only [cycleEdges, List.getElem_map, List.getElem_range]
    exact List.getD_eq_getElem l "" h2

/-- The second components of the edge list are the shuffle rotated left by
one position. -/
lemma cycleEdges_map_snd (l : List String) : (cycleEdges l).map Prod.snd = l.rotate 1 := by
  apply List.ext_getElem
  · simp [cycleEdges]
  · intro i h1 h2
    have hl : 0 < l.length := by
      rw [List.length_rotate] at h2
      omega
    simp only [cycleEdges, List.getElem_map, List.getElem_range, List.getElem_rotate]
    exact List.getD_eq_getElem l "" (Nat.mod_lt _ hl)

lemma cycleEdges_length (l : List String) : (cycleEdges l).length = l.length := by
  simp [cycleEdges]

lemma mem_cycleEdges {l : List String} {e : String × String} :
    e ∈ cycleEdges l ↔
      ∃ i, i < l.length ∧ e = (l.getD i "", l.getD ((i + 1) % l.length) "") := by
  simp [cycleEdges, List.mem_map, List.mem_range, eq_comm]

/-- A cycle over at least two distinct names has no self-edge. -/
lemma cycleEdges_no_fixpoint {l : List String} (hnd : l.Nodup) (hlen : 2 ≤ l.length) :
    ∀ e ∈ cycleEdges l, e.1 ≠ e.2 := by
  intro e he
  rw [mem_cycleEdges] at he
  obtain ⟨i, hi, rfl⟩ := he
  have hj : (i + 1) % l.length < l.length := Nat.mod_lt _ (by omega)
  simp only [ne_eq]
  rw [List.getD_eq_getElem l "" hi, List.getD_eq_getElem l "" hj]
  intro hEq
  have hij := (List.Nodup.getElem_inj_iff hnd).mp hEq
  rcases Nat.lt_or_ge (i + 1) l.length with hlt | hge
  · rw [Nat.mod_eq_of_lt hlt] at hij
    omega
  · have hn : i + 1 = l.length := by omega
    rw [hn, Nat.mod_self] at hij
    omega

/-- When every member of the pool carries team `t`, the team lookup yields
`some t` on every participant name. -/
lemma teamsOf_of_all_some {db : DB} {t : String}
    (h : ∀ m ∈ db.family_members, m.team_name = some t) :
    ∀ x ∈ memberNames db, teamsOf db x = some t := by
  intro x hx
  unfold memberNames at hx
  rw [List.mem_map] at hx
  obtain ⟨m, hm, rfl⟩ := hx
  unfold teamsOf
  have hmem : m ∈ (sortedMembers db).reverse := List.mem_reverse.mpr hm
  have hsome : ((sortedMembers db).reverse.find? (fun mm => mm.name == m.name)).isSome :=
    List.find?_isSome.mpr ⟨m, hmem, by simp⟩
  obtain ⟨m2, hm2⟩ := Option.isSome_iff_exists.mp hsome
  rw [hm2]
  have h2 := List.mem_of_find?_eq_some hm2
  rw [List.mem_reverse] at h2
  unfold sortedMembers at h2
  have h3 : m2 ∈ db.family_members := (List.perm_insertionSort _ _).mem_iff.mp h2
  simp [h m2 h3]

/-- When no member of the pool carries a team, the team lookup is `none`
everywhere. -/
lemma teamsOf_none {db : DB} (h : ∀ m ∈ db.family_members, m.team_name = none) :
    ∀ x, teamsOf db x = none := by
  intro x
  unfold teamsOf
  cases hf : (sortedMembers db).reverse.find? (fun m => m.name == x) with
  | none => rfl
  | some m2 =>
    have h2 := List.mem_of_find?_eq_some hf
    rw [List.mem_reverse] at h2
    unfold sortedMembers at h2
    have h3 : m2 ∈ db.family_members := (List.perm_insertionSort _ _).mem_iff.mp h2
    simp [h m2 h3]

/-- Without teams no adjacent pair can collide, so every shuffle passes the
validity check. -/
lemma validAssignment_no_team {teams : String → Option String}
    (h : ∀ x, teams x = none) (l : List String) :
    validAssignment teams l = true := by
  unfold validAssignment
  rw [List.all_eq_true]
  intro e _
  simp [teamConflict, h]

/-- A list of length at least two whose elements all carry the same
non-empty team fails the validity check: already its first adjacent pair
collides. -/
lemma validAssignment_same_team_false {teams : String → Option String} {t : String}
    {l : List String} (ht : t ≠ "") (hlen : 2 ≤ l.length)
    (hall : ∀ x ∈ l, teams x = some t) :
    validAssignment teams l = false := by
  cases l with
  | nil => simp at hlen
  | cons a l1 =>
    cases l1 with
    | nil => simp at hlen
    | cons b rest =>
      unfold validAssignment
      rw [List.all_eq_false]
      refine ⟨(a, b), ?_, ?_⟩
      · rw [mem_cycleEdges]
        refine ⟨0, by simp, ?_⟩
        have hmod : (0 + 1) % (a :: b :: rest).length = 1 :=
          Nat.mod_eq_of_lt (by simp)
        rw [hmod]
        simp
      · have hA : teams a = some t := hall a (by simp)
        have hB : teams b = some t := hall b (by simp)
        simp [teamConflict, hA, hB, ht]

/-- Inversion of a successful run: the pool had at least two names, some
attempt passed the validity check, and the store was updated to exactly
that attempt's cycle edges. -/
lemma run_success_inv {shuffles : Nat → List String} {db db2 : DB}
    (h : run_secret_santa shuffles db = (SantaOutcome.success, db2)) :
    2 ≤ (memberNames db).length ∧
      ∃ a, ((List.range MAX_ATTEMPTS).map shuffles).find?
          (validAssignment (teamsOf db)) = some a ∧
        db2 = { db with secret_santa := cycleEdges a } := by
  by_cases hlt : (memberNames db).length < 2
  · rw [run_secret_santa, if_pos hlt] at h
    exact absurd (congrArg Prod.fst h) (by simp)
  · rw [run_secret_santa, if_neg hlt] at h
    refine ⟨by omega, ?_⟩
    cases hfind : ((List.range MAX_ATTEMPTS).map shuffles).find?
        (validAssignment (teamsOf db)) with
    | none =>
      rw [hfind] at h
      exact absurd (congrArg Prod.fst h) (by simp)
    | some a =>
      rw [hfind] at h
      exact ⟨a, rfl, (congrArg Prod.snd h).symm⟩

/-- When every attempt in the window fails the validity check, the run
reports `NoFeasibleAssignment` and returns the store unchanged. -/
lemma run_noFeasible {shuffles : Nat → List String} {db : DB}
    (h2 : 2 ≤ (memberNames db).length)
    (hfail : ∀ i, i < MAX_ATTEMPTS → validAssignment (teamsOf db) (shuffles i) = false) :
    run_secret_santa shuffles db = (SantaOutcome.noFeasibleAssignment, db) := by
  rw [run_secret_santa, if_neg (by omega)]
  have hnone : ((List.range MAX_ATTEMPTS).map shuffles).find?
      (validAssignment (teamsOf db)) = none := by
    rw [List.find?_eq_none]
    intro x hx
    rw [List.mem_map] at hx
    obtain ⟨i, hi, rfl⟩ := hx
    rw [List.mem_range] at hi
    simp [hfail i hi]
  rw [hnone]

/-- When the very first attempt passes, the search returns it. -/
lemma find_map_range_succ_of_pos {p : List String → Bool} {shuffles : Nat → List String}
    {n : Nat} (h : p (shuffles 0) = true) :
    ((List.range (n + 1)).map shuffles).find? p = some (shuffles 0) := by
  rw [List.range_succ_eq_map, List.map_cons, List.find?_cons_of_pos _ h]

/-- A false team-collision test refutes equal non-empty teams on the pair. -/
lemma teamConflict_false_elim {teams : String → Option String} {g r t : String}
    (hc : teamConflict teams g r = false) (ht : t ≠ "") (hg : teams g = some t) :
    teams r ≠ some t := by
  intro hr
  unfold teamConflict at hc
  rw [hg, hr] at hc
  simp [ht] at hc

/-- C1: a successful run on at least two distinct participants stores
exactly the cycle edges of one shuffled permutation (giver to next
element, wrapping), replacing every previous edge, so every participant
appears exactly once as giver and once as receiver; the other tables are
untouched. -/
theorem secret_santa_success_replaces_with_cycle
    (shuffles : Nat → List String) (db db2 : DB)
    (hnd : (memberNames db).Nodup)
    (hperm : ∀ i, (shuffles i).Perm (memberNames db))
    (h : run_secret_santa shuffles db = (SantaOutcome.success, db2)) :
    ∃ a, a.Perm (memberNames db) ∧
      db2.secret_santa = cycleEdges a ∧
      db2.wishes = db.wishes ∧
      db2.family_members = db.family_members ∧
      (db2.secret_santa.map Prod.fst).Perm (memberNames db) ∧
      (db2.secret_santa.map Prod.snd).Perm (memberNames db) ∧
      (db2.secret_santa.map Prod.fst).Nodup ∧
      (db2.secret_santa.map Prod.snd).Nodup ∧
      db2.secret_santa.length = (memberNames db).length := by
  obtain ⟨h2, a, hfind, rfl⟩ := run_success_inv h
  have hmem := List.mem_of_find?_eq_some hfind
  rw [List.mem_map] at hmem
  obtain ⟨i, _, hi⟩ := hmem
  have ha : a.Perm (memberNames db) := hi ▸ hperm i
  refine ⟨a, ha, rfl, rfl, rfl, ?_, ?_, ?_, ?_, ?_⟩
  · show ((cycleEdges a).map Prod.fst).Perm (memberNames db)
    rw [cycleEdges_map_fst]
    exact ha
  · show ((cycleEdges a).map Prod.snd).Perm (memberNames db)
    rw [cycleEdges_map_snd]
    exact (List.rotate_perm a 1).trans ha
  · show ((cycleEdges a).map Prod.fst).Nodup
    rw [cycleEdges_map_fst]
    exact ha.nodup_iff.mpr hnd
  · show ((cycleEdges a).map Prod.snd).Nodup
    rw [cycleEdges_map_snd]
    exact ((List.rotate_perm a 1).trans ha).nodup_iff.mpr hnd
  · show (cycleEdges a).length = (memberNames db).length
    rw [cycleEdges_length]
    exact ha.length_eq

theorem secret_santa_success_replaces_with_cycle_witness :
    (memberNames exPair).Nodup ∧
    (∃ a, a.Perm (memberNames exPair) ∧
      exPairAfter.secret_santa = cycleEdges a ∧
      exPairAfter.wishes = exPair.wishes ∧
      exPairAfter.family_members = exPair.family_members ∧
      (exPairAfter.secret_santa.map Prod.fst).Perm (memberNames exPair) ∧
      (exPairAfter.secret_santa.map Prod.snd).Perm (memberNames exPair) ∧
      (exPairAfter.secret_santa.map Prod.fst).Nodup ∧
      (exPairAfter.secret_santa.map Prod.snd).Nodup ∧
      exPairAfter.secret_santa.length = (memberNames exPair).length) :=
  ⟨by decide, secret_santa_success_replaces_with_cycle (fun _ => ["ann", "bob"]) exPair
    exPairAfter (by decide)
    (fun _ => show List.Perm ["ann", "bob"] (memberNames exPair) by decide) (by rfl)⟩

/-- C2: every edge of a successful output joins participants whose teams
differ or at least one of whom has no (or an empty) team tag. -/
theorem secret_santa_respects_teams
    (shuffles : Nat → List String) (db db2 : DB)
    (h : run_secret_santa shuffles db = (SantaOutcome.success, db2)) :
    ∀ e ∈ db2.secret_santa, ∀ t : String,
      t ≠ "" → teamsOf db e.1 = some t → teamsOf db e.2 ≠ some t := by
  obtain ⟨h2, a, hfind, rfl⟩ := run_success_inv h
  have hvalid := List.find?_some hfind
  unfold validAssignment at hvalid
  rw [List.all_eq_true] at hvalid
  intro e he t ht hg
  have he2 : e ∈ cycleEdges a := he
  have hc := hvalid e he2
  have hc2 : teamConflict (teamsOf db) e.1 e.2 = false := by simpa using hc
  exact teamConflict_false_elim hc2 ht hg

theorem secret_santa_respects_teams_witness :
    ("ann", "bob") ∈ exPairTeamsAfter.secret_santa ∧
    teamsOf exPairTeams "ann" = some "x" ∧
    teamsOf exPairTeams "bob" ≠ some "x" :=
  ⟨by decide, by decide,
    secret_santa_respects_teams (fun _ => ["ann", "bob"]) exPairTeams exPairTeamsAfter
      (by rfl) ("ann", "bob") (by decide) "x" (by decide) (by decide)⟩

/-- C3: a successful run on distinct participants never assigns anyone to
themselves. -/
theorem secret_santa_no_self_gift
    (shuffles : Nat → List String) (db db2 : DB)
    (hnd : (memberNames db).Nodup)
    (hperm : ∀ i, (shuffles i).Perm (memberNames db))
    (h : run_secret_santa shuffles db = (SantaOutcome.success, db2)) :
    ∀ e ∈ db2.secret_santa, e.1 ≠ e.2 := by
  obtain ⟨h2, a, hfind, rfl⟩ := run_success_inv h
  have hmem := List.mem_of_find?_eq_some hfind
  rw [List.mem_map] at hmem
  obtain ⟨i, _, hi⟩ := hmem
  have ha : a.Perm (memberNames db) := hi ▸ hperm i
  have hnda : a.Nodup := ha.nodup_iff.mpr hnd
  have hlena : 2 ≤ a.length := by
    rw [ha.length_eq]
    exact h2
  intro e he
  exact cycleEdges_no_fixpoint hnda hlena e he

theorem secret_santa_no_self_gift_witness :
    (memberNames exPair).Nodup ∧ ∀ e ∈ exPairAfter.secret_santa, e.1 ≠ e.2 :=
  ⟨by decide, secret_santa_no_self_gift (fun _ => ["ann", "bob"]) exPair exPairAfter
    (by decide)
    (fun _ => show List.Perm ["ann", "bob"] (memberNames exPair) by decide) (by rfl)⟩

/-- C4: with fewer than two participants the run fails with
`InsufficientParticipants` and returns the store unchanged, whatever the
randomness stream holds (no shuffle is consulted). -/
theorem secret_santa_insufficient (db : DB)
    (h : (memberNames db).length < 2) :
    ∀ shuffles : Nat → List String,
      run_secret_santa shuffles db = (SantaOutcome.insufficientParticipants, db) := by
  intro shuffles
  rw [run_secret_santa, if_pos h]

theorem secret_santa_insufficient_witness :
    (memberNames exSolo).length < 2 ∧
    run_secret_santa (fun _ => []) exSolo =
      (SantaOutcome.insufficientParticipants, exSolo) :=
  ⟨by decide, secret_santa_insufficient exSolo (by decide) (fun _ => [])⟩

/-- C5: when all `MAX_ATTEMPTS` shuffles fail the validity check the run
fails with `NoFeasibleAssignment` and the returned store is the input
store, previously stored edges included. -/
theorem secret_santa_exhausted_untouched
    (shuffles : Nat → List String) (db : DB)
    (h2 : 2 ≤ (memberNames db).length)
    (hfail : ∀ i, i < MAX_ATTEMPTS → validAssignment (teamsOf db) (shuffles i) = false) :
    run_secret_santa shuffles db = (SantaOutcome.noFeasibleAssignment, db) :=
  run_noFeasible h2 hfail

theorem secret_santa_exhausted_untouched_witness :
    2 ≤ (memberNames exTrio).length ∧
    run_secret_santa (fun _ => ["ada", "ben", "cid"]) exTrio =
      (SantaOutcome.noFeasibleAssignment, exTrio) :=
  ⟨by decide, secret_santa_exhausted_untouched (fun _ => ["ada", "ben", "cid"]) exTrio
    (by decide)
    (fun _ _ =>
      show validAssignment (teamsOf exTrio) ["ada", "ben", "cid"] = false by decide)⟩

/-- C6: when no member carries a team tag, every shuffle passes the
validity check, so the run succeeds with the very first attempt's cycle. -/
theorem secret_santa_no_teams_first_attempt
    (shuffles : Nat → List String) (db : DB)
    (h2 : 2 ≤ (memberNames db).length)
    (hteam : ∀ m ∈ db.family_members, m.team_name = none) :
    (∀ l : List String, validAssignment (teamsOf db) l = true) ∧
    run_secret_santa shuffles db =
      (SantaOutcome.success, { db with secret_santa := cycleEdges (shuffles 0) }) := by
  have hvalid : ∀ l : List String, validAssignment (teamsOf db) l = true :=
    fun l => validAssignment_no_team (teamsOf_none hteam) l
  refine ⟨hvalid, ?_⟩
  rw [run_secret_santa, if_neg (by omega)]
  have h200 : MAX_ATTEMPTS = 199 + 1 := rfl
  rw [h200, find_map_range_succ_of_pos (hvalid (shuffles 0))]

theorem secret_santa_no_teams_first_attempt_witness :
    2 ≤ (memberNames exTwenty).length ∧
    (∀ l : List String, validAssignment (teamsOf exTwenty) l = true) ∧
    run_secret_santa (fun _ => exTwentyNames) exTwenty =
      (SantaOutcome.success, { exTwenty with secret_santa := cycleEdges exTwentyNames }) := by
  have h := secret_santa_no_teams_first_attempt (fun _ => exTwentyNames) exTwenty
    (by decide) (by decide)
  exact ⟨by decide, h.1, h.2⟩

/-- C7: three participants all on the same non-empty team admit no valid
cycle, so the run exhausts its attempts and fails with
`NoFeasibleAssignment`, whatever the shuffles were. -/
theorem secret_santa_all_same_team_trio_fails
    (shuffles : Nat → List String) (db : DB) (t : String)
    (ht : t ≠ "")
    (hcount : db.family_members.length = 3)
    (hteam : ∀ m ∈ db.family_members, m.team_name = some t)
    (hperm : ∀ i, (shuffles i).Perm (memberNames db)) :
    run_secret_santa shuffles db = (SantaOutcome.noFeasibleAssignment, db) := by
  have hlen3 : (memberNames db).length = 3 := by
    unfold memberNames sortedMembers
    rw [List.length_map, (List.perm_insertionSort _ _).length_eq]
    exact hcount
  apply run_noFeasible (by omega)
  intro i _
  have hleq := (hperm i).length_eq
  rw [hlen3] at hleq
  apply validAssignment_same_team_false ht (by omega)
  intro x hx
  exact teamsOf_of_all_some hteam x ((hperm i).mem_iff.mp hx)

theorem secret_santa_all_same_team_trio_fails_witness :
    "x" ≠ "" ∧ exTrio.family_members.length = 3 ∧
    run_secret_santa (fun _ => ["ben", "ada", "cid"]) exTrio =
      (SantaOutcome.noFeasibleAssignment, exTrio) :=
  ⟨by decide, by decide,
    secret_santa_all_same_team_trio_fails (fun _ => ["ben", "ada", "cid"]) exTrio "x"
      (by decide) (by decide) (by decide)
      (fun _ => show List.Perm ["ben", "ada", "cid"] (memberNames exTrio) by decide)⟩

/-- C8: the run reads only the member pool and the randomness; two stores
with the same `family_members` yield the same outcome and, on success, the
same stored edges, whatever assignment either store held before. -/
theorem secret_santa_independent_of_stored_state
    (shuffles : Nat → List String) (db1 db2 : DB)
    (hfm : db1.family_members = db2.family_members) :
    (run_secret_santa shuffles db1).1 = (run_secret_santa shuffles db2).1 ∧
    ((run_secret_santa shuffles db1).1 = SantaOutcome.success →
      (run_secret_santa shuffles db1).2.secret_santa =
        (run_secret_santa shuffles db2).2.secret_santa) := by
  have hn : memberNames db1 = memberNames db2 := by
    unfold memberNames sortedMembers
    rw [hfm]
  have ht : teamsOf db1 = teamsOf db2 := by
    unfold teamsOf sortedMembers
    rw [hfm]
  rw [run_secret_santa, run_secret_santa, hn, ht]
  by_cases hc : (memberNames db2).length < 2
  · rw [if_pos hc, if_pos hc]
    exact ⟨rfl, fun habs => absurd habs (by simp)⟩
  · rw [if_neg hc, if_neg hc]
    cases hfind : ((List.range MAX_ATTEMPTS).map shuffles).find?
        (validAssignment (teamsOf db2)) with
    | none => exact ⟨rfl, fun habs => absurd habs (by simp)⟩
    | some a => exact ⟨rfl, fun _ => rfl⟩

theorem secret_santa_independent_of_stored_state_witness :
    (run_secret_santa (fun _ => ["ann", "bob"]) exDel).1 =
      (run_secret_santa (fun _ => ["ann", "bob"]) exPair).1 ∧
    ((run_secret_santa (fun _ => ["ann", "bob"]) exDel).1 = SantaOutcome.success →
      (run_secret_santa (fun _ => ["ann", "bob"]) exDel).2.secret_santa =
        (run_secret_santa (fun _ => ["ann", "bob"]) exPair).2.secret_santa) :=
  secret_santa_independent_of_stored_state (fun _ => ["ann", "bob"]) exDel exPair (by rfl)

/-- C9: deleting a member removes exactly that member's row and the wishes
bearing the member's name, while the stored Secret Santa edges are left
byte-for-byte unchanged; hence (concretely on `exDel`) the surviving edge
set can name a participant who no longer exists. -/
theorem delete_member_leaves_assignment
    (db : DB) (mid : Nat) :
    (delete_family_member mid db).secret_santa = db.secret_santa ∧
    (∀ m ∈ (delete_family_member mid db).family_members, m.id ≠ mid) ∧
    (∀ member, db.family_members.find? (fun m => m.id == mid) = some member →
      ∀ w : Wish, w ∈ (delete_family_member mid db).wishes ↔
        (w ∈ db.wishes ∧ w.person_name ≠ member.name)) ∧
    (∃ e ∈ (delete_family_member 1 exDel).secret_santa,
      ∀ m ∈ (delete_family_member 1 exDel).family_members, m.name ≠ e.1) := by
  refine ⟨?_, ?_, ?_, ?_⟩
  · unfold delete_family_member
    split <;> rfl
  · intro m hm
    unfold delete_family_member at hm
    split at hm
    next hf =>
      rw [List.find?_eq_none] at hf
      have := hf m hm
      simpa using this
    next member hf =>
      rw [List.mem_filter] at hm
      simpa using hm.2
  · intro member hfind w
    unfold delete_family_member
    rw [hfind]
    show w ∈ db.wishes.filter (fun w2 => !(w2.person_name == member.name)) ↔ _
    rw [List.mem_filter]
    simp
  · decide

theorem delete_member_leaves_assignment_witness :
    (delete_family_member 1 exDel).secret_santa = exDel.secret_santa :=
  (delete_member_leaves_assignment exDel 1).1

/-- C10: `wishes_locked` is `true` exactly when the stored deadline string
parses as a valid ISO date strictly earlier than today; any other stored
value (unset, empty, malformed) yields `false`, while `set_deadline`
stores the stripped submitted string with no validation at all. -/
theorem wishes_locked_only_on_valid_past_deadline
    (db : DB) (today : PyDate) :
    ((wishes_locked db today = true) ↔
      ∃ s d, db.settings "wish_deadline" = some s ∧ parseIsoDate s = some d ∧
        dateLt d today = true) ∧
    (∀ raw : String, (set_deadline raw db).settings "wish_deadline" = some raw.trim) := by
  constructor
  · unfold wishes_locked get_setting
    cases hs : db.settings "wish_deadline" with
    | none => simp
    | some s =>
      by_cases hse : s = ""
      · subst hse
        simp [show parseIsoDate "" = none from rfl]
      · cases hp : parseIsoDate s with
        | none => simp [hse, hp]
        | some d => simp [hse, hp]
  · intro raw
    unfold set_deadline set_setting
    by_cases hr : raw.trim = ""
    · rw [if_pos hr]
      simp [hr]
    · rw [if_neg hr]
      simp

theorem wishes_locked_only_on_valid_past_deadline_witness :
    wishes_locked exBadDeadline ⟨2030, 1, 1⟩ = false ∧
    (set_deadline "2025-13-05" exBadDeadline).settings "wish_deadline" =
      some ("2025-13-05".trim) := by
  constructor
  · have h := (wishes_locked_only_on_valid_past_deadline exBadDeadline ⟨2030, 1, 1⟩).1
    by_contra hb
    simp only [Bool.not_eq_false] at hb
    obtain ⟨s, d, hs, hp, _⟩ := h.mp hb
    have hsv : exBadDeadline.settings "wish_deadline" = some "2025-13-05" := rfl
    rw [hsv] at hs
    injection hs with hs2
    subst hs2
    rw [show parseIsoDate "2025-13-05" = none from rfl] at hp
    exact Option.noConfusion hp
  · exact (wishes_locked_only_on_valid_past_deadline exBadDeadline ⟨2030, 1, 1⟩).2
      "2025-13-05"
